import Mathlib

/-!
Verification development for the merge-on-write delete-bitmap engine of a
columnar storage tablet (`BaseTablet` in `olap/base_tablet.cpp`) and the
compaction task scheduler's auto-tuning loop.

The C++ source is shallowly embedded: delete bitmaps become lists of
`(rowset-id, segment-id, version) -> row-id` entries, statuses become a small
inductive, and the per-key / per-cell bodies of the relevant functions become
Lean functions mirroring the source control flow.
-/

/-- Status codes, mirroring the `doris::Status` values produced by the
embedded functions. -/
inductive Status where
  | ok
  | internalError
  | metaInvalidArgument
  | ioError
  | notImplementedError
  | keyNotFound
  deriving DecidableEq, Repr

/-- Tablet states, per the spec's data model (`RUNNING, NOT_READY, SHUTDOWN`). -/
inductive TabletState where
  | running
  | notReady
  | shutdown
  deriving DecidableEq, Repr

/-- `BaseTablet::set_tablet_state` (base_tablet.cpp:174-181): refuses to leave
`TABLET_SHUTDOWN`, otherwise stores the requested state. Returns the status and
the state stored in tablet meta afterwards. -/
def set_tablet_state (cur req : TabletState) : Status × TabletState :=
  if cur = TabletState.shutdown ∧ req ≠ TabletState.shutdown then
    (Status.metaInvalidArgument, cur)
  else
    (Status.ok, req)

/-- A delete-bitmap key `(rowset_id, segment_id, version)`; rowset ids are
abstracted to `Nat`, versions are `Int` (int64 in the source). -/
abbrev BitmapKey := Nat × Nat × Int

/-- One delete-bitmap entry: a key together with a marked row ordinal. -/
abbrev BitmapEntry := BitmapKey × Nat

/-- The delete bitmap, embedded as the list of its entries. -/
abbrev DeleteBitmapM := List BitmapEntry

/-- `DeleteBitmap::TEMP_VERSION_COMMON`: the temporary version used while a
transaction's final version is unknown (the source comments fix it to 0). -/
def TEMP_VERSION_COMMON : Int := 0

/-- Modelled from the spec: the reserved `INVALID_SEGMENT_ID` used by sentinel
entries (§4.1). Its definition is outside the excerpt; only its identity as a
fixed reserved segment id below `UINT32_MAX` matters here. -/
def INVALID_SEGMENT_ID : Nat := 4294967294

/-- Modelled from the spec: the reserved `ROWSET_SENTINEL_MARK` row ordinal
recorded to say "this rowset's bitmap has been computed" (§4.1). Its numeric
value is outside the excerpt; only its identity matters here. -/
def ROWSET_SENTINEL_MARK : Nat := 4294967294

/-- `DeleteBitmap::add`: record one row as deleted under a key. -/
def bmAdd (bm : DeleteBitmapM) (k : BitmapKey) (row : Nat) : DeleteBitmapM :=
  (k, row) :: bm

/-- `DeleteBitmap::contains`: membership of one `(key, row)` pair. -/
def bmContains (bm : DeleteBitmapM) (k : BitmapKey) (row : Nat) : Bool :=
  decide ((k, row) ∈ bm)

/-- `BaseTablet::check_delete_bitmap_correctness` (base_tablet.cpp:1403-1471):
collects the rowset ids whose sentinel key
`(rowset_id, INVALID_SEGMENT_ID, TEMP_VERSION_COMMON)` is absent from the
delete bitmap's key set; returns `InternalError` when any id is missing and
`OK` otherwise. `bitmap_keys` is the key set of the bitmap's underlying map. -/
def check_delete_bitmap_correctness (bitmap_keys : List BitmapKey)
    (rowset_ids : List Nat) : Status :=
  if (rowset_ids.filter
      (fun rid => !(decide ((rid, INVALID_SEGMENT_ID, TEMP_VERSION_COMMON) ∈ bitmap_keys)))).isEmpty
  then Status.ok else Status.internalError

/-- `BaseTablet::add_sentinel_mark_to_delete_bitmap` (base_tablet.cpp:1347-1354):
adds the sentinel entry for every given rowset id. -/
def add_sentinel_mark_to_delete_bitmap (bm : DeleteBitmapM)
    (rowsetids : List Nat) : DeleteBitmapM :=
  rowsetids.foldl
    (fun b rid => bmAdd b (rid, INVALID_SEGMENT_ID, TEMP_VERSION_COMMON) ROWSET_SENTINEL_MARK)
    bm

/-- The sentinel-recording stage at the end of
`BaseTablet::calc_segment_delete_bitmap` (base_tablet.cpp:816-825): the
sentinel marks for the specified base rowsets are added only when
`config::enable_merge_on_write_correctness_check` is enabled. -/
def calc_segment_delete_bitmap_sentinel_stage (enable_check : Bool)
    (specified_rowset_ids : List Nat) (bm : DeleteBitmapM) : DeleteBitmapM :=
  if enable_check then add_sentinel_mark_to_delete_bitmap bm specified_rowset_ids else bm

/-- A resolved physical row position (rowset id, segment id, row ordinal),
mirroring `RowLocation`. -/
structure RowLocation where
  rowset_id : Nat
  segment_id : Nat
  row_id : Nat
  deriving DecidableEq, Repr

/-- The benign outcomes of `BaseTablet::lookup_row_key` as consumed by the
per-key loop of `calc_segment_delete_bitmap` (errors abort the loop and are
not part of the per-key state update). `found` is the OK status; the other
two are `KEY_NOT_FOUND` and `KEY_ALREADY_EXISTS`. -/
inductive KeyLookupResult where
  | keyNotFound
  | keyAlreadyExists (loc : RowLocation)
  | found (loc : RowLocation)
  deriving DecidableEq, Repr

/-- A fixed read plan: queued `(row location, output position)` pairs, the
effect of `FixedReadPlan::prepare_to_read`. -/
abbrev ReadPlan := List (RowLocation × Nat)

/-- The state threaded through the per-key loop of
`calc_segment_delete_bitmap` (base_tablet.cpp:677-811): the delete bitmap
under construction, the two read plans, the flexible-mode overwritten row
positions, and the running output position `pos`. -/
structure CalcState where
  delete_bitmap : DeleteBitmapM
  read_plan_ori : ReadPlan
  read_plan_update : ReadPlan
  rids_be_overwritten : List Nat
  pos : Nat
  deriving DecidableEq, Repr

/-- The per-write parameters of `calc_segment_delete_bitmap`
(base_tablet.cpp:593-611). `is_partial_update` is
`rowset_writer && rowset_writer->is_partial_update()`, so it already implies
a rowset writer is present; a partial update is fixed-mode or flexible-mode. -/
structure PartialUpdateCtx where
  is_partial_update : Bool
  is_fixed_partial_update : Bool
  have_input_seq_column : Bool
  deriving DecidableEq, Repr

/-- The partial-update arm of the per-key loop (base_tablet.cpp:764-806):
queue the old and new row locations into the read plans, record flexible-mode
rows overwritten by a higher sequence value, mark both locations deleted at
the temporary version, and advance `pos`. -/
def partialUpdateBranch (rowset_id seg_id : Nat) (ctx : PartialUpdateCtx)
    (st : CalcState) (row_id : Nat) (loc : RowLocation)
    (key_already_exists : Bool) : CalcState :=
  let read_plan_ori := st.read_plan_ori ++ [(loc, st.pos)]
  let read_plan_update :=
    st.read_plan_update ++ [(RowLocation.mk rowset_id seg_id row_id, st.pos)]
  let rids :=
    if key_already_exists && !ctx.is_fixed_partial_update then
      st.rids_be_overwritten ++ [st.pos]
    else
      st.rids_be_overwritten
  let bm1 :=
    bmAdd st.delete_bitmap (loc.rowset_id, loc.segment_id, TEMP_VERSION_COMMON) loc.row_id
  let bm2 := bmAdd bm1 (rowset_id, seg_id, TEMP_VERSION_COMMON) row_id
  { delete_bitmap := bm2, read_plan_ori := read_plan_ori,
    read_plan_update := read_plan_update, rids_be_overwritten := rids,
    pos := st.pos + 1 }

/-- One iteration of the per-key loop of
`BaseTablet::calc_segment_delete_bitmap` (base_tablet.cpp:702-810) for the
key at `row_id` of segment `seg_id` of the newly written rowset `rowset_id`,
given the lookup outcome against the specified base rowsets. -/
def calc_segment_delete_bitmap_step (rowset_id seg_id : Nat)
    (ctx : PartialUpdateCtx) (st : CalcState) (row_id : Nat)
    (lookup : KeyLookupResult) : CalcState :=
  -- same row in segments should be filtered (line 702-706)
  if bmContains st.delete_bitmap (rowset_id, seg_id, TEMP_VERSION_COMMON) row_id then
    st
  else
    match lookup with
    | KeyLookupResult.keyNotFound => st
    | KeyLookupResult.keyAlreadyExists loc =>
      if !ctx.is_partial_update
          || (ctx.is_fixed_partial_update && ctx.have_input_seq_column) then
        -- lines 743-763: an existing row has a larger sequence value; the new
        -- row loses and is marked deleted at the temporary version
        { st with
            delete_bitmap :=
              bmAdd st.delete_bitmap (rowset_id, seg_id, TEMP_VERSION_COMMON) row_id }
      else
        partialUpdateBranch rowset_id seg_id ctx st row_id loc true
    | KeyLookupResult.found loc =>
      if ctx.is_partial_update then
        partialUpdateBranch rowset_id seg_id ctx st row_id loc false
      else
        -- line 808-810: mark the resolved old row deleted
        { st with
            delete_bitmap :=
              bmAdd st.delete_bitmap
                (loc.rowset_id, loc.segment_id, TEMP_VERSION_COMMON) loc.row_id }

/-- A cell value of a column: null or a concrete stored value. -/
inductive CellValue where
  | null
  | val (v : Nat)
  deriving DecidableEq, Repr

/-- The per-column attributes consulted by
`generate_new_block_for_partial_update`: declared default, nullability,
whether it is the sequence column (the source spells the accessor
`is_seqeunce_col`), and the value type's default. -/
structure TabletColumn where
  has_default_value : Bool
  default_value : CellValue
  is_nullable : Bool
  is_seqeunce_col : Bool
  type_default : CellValue
  deriving DecidableEq, Repr

/-- `IColumn::insert_default` on the output column: null for a nullable
column, the value type's default otherwise. -/
def insertDefault (col : TabletColumn) : CellValue :=
  if col.is_nullable then CellValue.null else col.type_default

/-- The per-cell body that fills one missing column of one reconstructed row
in `BaseTablet::generate_new_block_for_partial_update`
(base_tablet.cpp:1066-1115). `new_delete_sign` / `old_delete_sign` are the
delete-sign marks of the conflicting new and old rows; `old_value` is the old
row's stored value for this column. The new block's delete signs are only
fetched when the schema has no sequence column (base_tablet.cpp:1043-1046). -/
def generate_new_block_missing_cell (has_sequence_col have_input_seq_column : Bool)
    (rs_column : TabletColumn) (new_delete_sign old_delete_sign : Bool)
    (old_value : CellValue) : CellValue :=
  let new_row_delete_sign := !has_sequence_col && new_delete_sign
  if new_row_delete_sign then
    insertDefault rs_column
  else
    let use_default :=
      if old_delete_sign then
        if !has_sequence_col then
          true
        else if have_input_seq_column || !rs_column.is_seqeunce_col then
          -- keep the sequence column value non-decreasing: read the old seq
          -- value even from a deleted row when the input has no seq column
          true
        else
          false
      else
        false
    if use_default then
      if rs_column.has_default_value then
        rs_column.default_value
      else if rs_column.is_nullable then
        CellValue.null
      else
        rs_column.type_default
    else
      old_value

/-- Modelled from the spec (§4.7): the compaction producer's per-round task
budget auto-tuning. The implementing function
(`StorageEngine::_compaction_tasks_producer_callback`) is outside the
excerpt; only its unit tests (`compaction_task_test.cpp:133-284`) are, so the
rule is taken from the spec: an empty queue doubles the budget bounded by the
configured ceiling; queue depth at or above the high-water mark halves it
bounded below by 1; otherwise the budget is unchanged. -/
def auto_tune_compaction_num_per_round (budget queue ceiling high_water : Nat) : Nat :=
  if queue = 0 then
    min (budget * 2) ceiling
  else if queue ≥ high_water then
    max (budget / 2) 1
  else
    budget

/-- `UINT32_MAX`, the upper bound used in full-rowset bitmap removals. -/
def UINT32_MAX : Nat := 4294967295

/-- `INT64_MAX`, the upper bound used in full-rowset bitmap removals. -/
def INT64_MAX : Int := 9223372036854775807

/-- Strict lexicographic order on bitmap keys
(rowset id, then segment id, then version). -/
def keyLtB (a b : BitmapKey) : Bool :=
  decide (a.1 < b.1) ||
    (decide (a.1 = b.1) &&
      (decide (a.2.1 < b.2.1) ||
        (decide (a.2.1 = b.2.1) && decide (a.2.2 < b.2.2))))

/-- Non-strict lexicographic order on bitmap keys. -/
def keyLeB (a b : BitmapKey) : Bool :=
  keyLtB a b || decide (a = b)

/-- Modelled from the spec (§4.1, `remove(range)`): `DeleteBitmap::remove`
(whose body is outside the excerpt) erases every entry whose key lies in the
half-open range `[lo, hi)` of the key order. -/
def bmRemoveRange (bm : DeleteBitmapM) (lo hi : BitmapKey) : DeleteBitmapM :=
  bm.filter (fun e => !(keyLeB lo e.1 && keyLtB e.1 hi))

/-- `BaseTablet::_rowset_ids_difference` (base_tablet.cpp:1356-1370): returns
`(to_add, to_del)` — ids in `cur` missing from `pre`, and ids in `pre`
missing from `cur`. -/
def _rowset_ids_difference (cur pre : List Nat) : List Nat × List Nat :=
  (cur.filter (fun id => !(decide (id ∈ pre))),
   pre.filter (fun id => !(decide (id ∈ cur))))

/-- The removal loop of `update_delete_bitmap` (base_tablet.cpp:1521-1523) and
`commit_phase_update_delete_bitmap` (base_tablet.cpp:1329-1331): for each
rowset id in `to_del`, remove the bitmap range
`[(id, 0, 0), (id, UINT32_MAX, INT64_MAX))`. -/
def remove_rowsets_from_delete_bitmap (bm : DeleteBitmapM)
    (to_del : List Nat) : DeleteBitmapM :=
  to_del.foldl (fun b rid => bmRemoveRange b (rid, 0, 0) (rid, UINT32_MAX, INT64_MAX)) bm

/-- A rowset as consulted by the reconciliation code: its id, end version,
and whether it was produced by compaction. -/
structure Rowset where
  rowset_id : Nat
  end_version : Int
  produced_by_compaction : Bool
  deriving DecidableEq, Repr

/-- `BaseTablet::get_rowset_by_ids` (base_tablet.cpp:414-428): the rowsets of
the version map whose id is in the specified set, sorted by descending end
version. -/
def get_rowset_by_ids (rs_version_map : List Rowset)
    (specified_rowset_ids : List Nat) : List Rowset :=
  (rs_version_map.filter (fun rs => decide (rs.rowset_id ∈ specified_rowset_ids))).mergeSort
    (fun lhs rhs => decide (rhs.end_version ≤ lhs.end_version))

/-- The assembly of `specified_rowsets` in `BaseTablet::update_delete_bitmap`
(base_tablet.cpp:1525-1538): the rowsets of `to_add`, and additionally — for a
transaction load — the transaction's invisible rowsets, re-sorted by
descending end version. -/
def publish_specified_rowsets (rs_version_map : List Rowset) (to_add : List Nat)
    (is_txn_load : Bool) (invisible_rowsets : List Rowset) : List Rowset :=
  let specified := get_rowset_by_ids rs_version_map to_add
  if is_txn_load then
    (specified ++ invisible_rowsets).mergeSort
      (fun lhs rhs => decide (rhs.end_version ≤ lhs.end_version))
  else
    specified

/-- The outcome of `Segment::read_key_by_rowid` for one row: the encoded
primary key (abstracted to `Nat`), a `NOT_IMPLEMENTED_ERROR` from an old
index format, or an I/O failure. -/
inductive ReadKeyResult where
  | ok (key : Nat)
  | notImplemented
  | ioErr
  deriving DecidableEq, Repr

/-- The inner loop of `BaseTablet::check_rowid_conversion` over one source
rowset's remapped `(src, dst)` locations (base_tablet.cpp:1736-1771).
`none` means iteration moved on to the next rowset (the list is exhausted, or
a `NOT_IMPLEMENTED_ERROR` source read `break`s out); `some st` means the
enclosing function returns status `st`. -/
def check_rowid_conversion_locations
    (read_src_key read_dst_key : RowLocation → ReadKeyResult) :
    List (RowLocation × RowLocation) → Option Status
  | [] => none
  | (src, dst) :: rest =>
    match read_src_key src with
    | ReadKeyResult.notImplemented => none
    | ReadKeyResult.ioErr => some Status.ioError
    | ReadKeyResult.ok src_key =>
      match read_dst_key dst with
      | ReadKeyResult.notImplemented => some Status.notImplementedError
      | ReadKeyResult.ioErr => some Status.ioError
      | ReadKeyResult.ok dst_key =>
        if src_key ≠ dst_key then
          some Status.internalError
        else
          check_rowid_conversion_locations read_src_key read_dst_key rest

/-- The outer loop of `check_rowid_conversion` over the location map's
rowsets. -/
def check_rowid_conversion_rowsets
    (read_src_key read_dst_key : RowLocation → ReadKeyResult) :
    List (List (RowLocation × RowLocation)) → Status
  | [] => Status.ok
  | locs :: rest =>
    match check_rowid_conversion_locations read_src_key read_dst_key locs with
    | some st => st
    | none => check_rowid_conversion_rowsets read_src_key read_dst_key rest

/-- `BaseTablet::check_rowid_conversion` (base_tablet.cpp:1714-1774): OK on an
empty location map, otherwise re-reads the primary key at each remapped
source and destination row and compares them. The segment readers are
abstracted as the two read functions; the location map is the list of each
source rowset's remapped pairs. -/
def check_rowid_conversion
    (read_src_key read_dst_key : RowLocation → ReadKeyResult)
    (location_map : List (List (RowLocation × RowLocation))) : Status :=
  if location_map.isEmpty then
    Status.ok
  else
    check_rowid_conversion_rowsets read_src_key read_dst_key location_map

/-- The compaction row-id conversion table, embedded as an association list
from source to destination location; `RowIdConversion::get` returns nonzero
exactly when the source row has no destination (`none` here). -/
def rowid_conversion_get (conv : List (RowLocation × RowLocation))
    (src : RowLocation) : Option RowLocation :=
  (conv.find? (fun p => p.1 == src)).map (fun p => p.2)

/-- Modelled from the spec (§4.1, `subset`): the entries of the bitmap for the
given rowset and segment whose version lies in
`[start_version, end_version]`, as taken by
`calc_compaction_output_rowset_delete_bitmap` (base_tablet.cpp:1679-1681). -/
def bmSubsetSeg (bm : DeleteBitmapM) (rid seg : Nat)
    (start_version end_version : Int) : DeleteBitmapM :=
  bm.filter (fun e => decide (e.1.1 = rid) && decide (e.1.2.1 = seg) &&
    decide (start_version ≤ e.1.2.2) && decide (e.1.2.2 ≤ end_version))

/-- The outputs accumulated by `calc_compaction_output_rowset_delete_bitmap`:
the missed source rows, the verification location map (flattened to pairs),
and the output rowset's delete bitmap. -/
structure CompactionBitmapOut where
  missed_rows : List RowLocation
  location_map : List (RowLocation × RowLocation)
  output_rowset_delete_bitmap : DeleteBitmapM
  deriving DecidableEq, Repr

/-- The per-entry body of the innermost loop of
`calc_compaction_output_rowset_delete_bitmap` (base_tablet.cpp:1686-1708),
applied to each marked source row in iteration order: an unmapped row goes to
`missed_rows`; a mapped row is recorded in the location map and re-expressed
in the output bitmap at `(dst rowset, dst segment, source version)`. -/
def convertEntries (conv : List (RowLocation × RowLocation)) :
    DeleteBitmapM → CompactionBitmapOut
  | [] => CompactionBitmapOut.mk [] [] []
  | e :: rest =>
    match rowid_conversion_get conv (RowLocation.mk e.1.1 e.1.2.1 e.2) with
    | none =>
      CompactionBitmapOut.mk
        (RowLocation.mk e.1.1 e.1.2.1 e.2 :: (convertEntries conv rest).missed_rows)
        (convertEntries conv rest).location_map
        (convertEntries conv rest).output_rowset_delete_bitmap
    | some dst =>
      CompactionBitmapOut.mk
        (convertEntries conv rest).missed_rows
        ((RowLocation.mk e.1.1 e.1.2.1 e.2, dst) :: (convertEntries conv rest).location_map)
        (bmAdd (convertEntries conv rest).output_rowset_delete_bitmap
          (dst.rowset_id, dst.segment_id, e.1.2.2) dst.row_id)

/-- The marked source entries traversed by the two outer loops of
`calc_compaction_output_rowset_delete_bitmap` (base_tablet.cpp:1675-1684):
for each input rowset `(rowset_id, num_segments)` and each of its segment ids,
the bitmap subset of that segment in the version range, concatenated in
iteration order. -/
def compaction_source_entries (input_rowsets : List (Nat × Nat))
    (bm : DeleteBitmapM) (start_version end_version : Int) : DeleteBitmapM :=
  input_rowsets.flatMap (fun p =>
    (List.range p.2).flatMap (fun seg => bmSubsetSeg bm p.1 seg start_version end_version))

/-- `BaseTablet::calc_compaction_output_rowset_delete_bitmap`
(base_tablet.cpp:1668-1712), with the nested rowset/segment loops expressed
as the traversal of `compaction_source_entries`. -/
def calc_compaction_output_rowset_delete_bitmap (input_rowsets : List (Nat × Nat))
    (conv : List (RowLocation × RowLocation)) (start_version end_version : Int)
    (input_delete_bitmap : DeleteBitmapM) : CompactionBitmapOut :=
  convertEntries conv
    (compaction_source_entries input_rowsets input_delete_bitmap start_version end_version)

/-- `src` is a delete mark of the input rowsets at version `ver` within the
compacted version range: its rowset is one of the input rowsets, its segment
id is within that rowset, and the input bitmap marks the row at `ver` with
`start_version ≤ ver ≤ end_version`. -/
def sourceMarked (input_rowsets : List (Nat × Nat)) (bm : DeleteBitmapM)
    (start_version end_version : Int) (src : RowLocation) (ver : Int) : Prop :=
  (∃ p ∈ input_rowsets, src.rowset_id = p.1 ∧ src.segment_id < p.2) ∧
    ((src.rowset_id, src.segment_id, ver), src.row_id) ∈ bm ∧
    start_version ≤ ver ∧ ver ≤ end_version

/-- The outcome of `Segment::lookup_row_key` on one segment's primary-key
index: `KEY_NOT_FOUND`, OK with the resolved location, `KEY_ALREADY_EXISTS`
with the superseding location (sequence-column schemas only), or an I/O
error. -/
inductive SegLookupResult where
  | keyNotFound
  | found (loc : RowLocation)
  | keyAlreadyExists (loc : RowLocation)
  | ioErr
  deriving DecidableEq, Repr

/-- One segment of a candidate rowset as consulted by
`BaseTablet::lookup_row_key`: the result of the `key_is_not_in_segment`
key-range bounds check for the probed key, and the outcome of the segment's
index lookup for it. -/
structure SegmentInfo where
  key_is_not_in_segment : Bool
  lookup : SegLookupResult
  deriving DecidableEq, Repr

/-- A candidate rowset: its segments, listed by segment id (list position). -/
structure CandidateRowset where
  segments : List SegmentInfo
  deriving DecidableEq, Repr

/-- Out-of-range segment accesses never occur in the source; the default is a
bounds-excluded segment without the key. -/
def defaultSegment : SegmentInfo :=
  SegmentInfo.mk true SegLookupResult.keyNotFound

/-- The final outcome of `BaseTablet::lookup_row_key`. -/
inductive LookupOutcome where
  | notFound
  | ok (loc : RowLocation)
  | alreadyExists (loc : RowLocation)
  | err
  deriving DecidableEq, Repr

/-- The `picked_segments` of one candidate rowset (base_tablet.cpp:495-504):
segment ids in descending order, skipping segments whose key-range bounds
check proves the key cannot be present. -/
def picked_segments (segs : List SegmentInfo) : List Nat :=
  ((List.range segs.length).reverse).filter
    (fun j => !(segs.getD j defaultSegment).key_is_not_in_segment)

/-- The inner loop of `lookup_row_key` over one rowset's picked segments
(base_tablet.cpp:515-544). `some o` means the enclosing function returns
outcome `o`; `none` means the scan moves on to the next rowset — because the
picked segments are exhausted, or because (for a schema without a sequence
column) a located occurrence was found already deleted and the remaining
segments of this rowset are skipped (the `break` at base_tablet.cpp:532).
`agg_deleted` is the set of locations covered by the delete bitmap
aggregated up to the lookup version
(`contains_agg_without_cache({loc.rowset_id, loc.segment_id, version},
loc.row_id)`). -/
def lookup_row_key_in_segments (has_sequence_col : Bool)
    (agg_deleted : List RowLocation) (segs : List SegmentInfo) :
    List Nat → Option LookupOutcome
  | [] => none
  | id :: rest =>
    match (segs.getD id defaultSegment).lookup with
    | SegLookupResult.keyNotFound =>
      lookup_row_key_in_segments has_sequence_col agg_deleted segs rest
    | SegLookupResult.ioErr => some LookupOutcome.err
    | SegLookupResult.keyAlreadyExists loc => some (LookupOutcome.alreadyExists loc)
    | SegLookupResult.found loc =>
      if decide (loc ∈ agg_deleted) then
        if has_sequence_col then
          lookup_row_key_in_segments has_sequence_col agg_deleted segs rest
        else
          none
      else
        some (LookupOutcome.ok loc)

/-- `BaseTablet::lookup_row_key` (base_tablet.cpp:463-548): scan the candidate
rowsets in the given (newest-first) order, each rowset's segments in
descending segment-id order pruned by the bounds check; return
`KEY_NOT_FOUND` when every rowset's scan falls through. -/
def lookup_row_key (has_sequence_col : Bool) (agg_deleted : List RowLocation) :
    List CandidateRowset → LookupOutcome
  | [] => LookupOutcome.notFound
  | rs :: rest =>
    match lookup_row_key_in_segments has_sequence_col agg_deleted rs.segments
        (picked_segments rs.segments) with
    | some o => o
    | none => lookup_row_key has_sequence_col agg_deleted rest

/-- The segment holds a live occurrence of the probed key: its lookup
resolves a location not covered by the aggregated delete bitmap. -/
def segmentLive (agg_deleted : List RowLocation) (s : SegmentInfo) : Prop :=
  ∃ loc, s.lookup = SegLookupResult.found loc ∧ loc ∉ agg_deleted

/-- The candidate rowset holds a live occurrence of the probed key. -/
def rowsetHasLive (agg_deleted : List RowLocation) (rs : CandidateRowset) : Prop :=
  ∃ s ∈ rs.segments, segmentLive agg_deleted s

lemma mem_add_sentinel_of_mem (ids : List Nat) (b : DeleteBitmapM) (e : BitmapEntry)
    (he : e ∈ b) : e ∈ add_sentinel_mark_to_delete_bitmap b ids := by
  induction ids generalizing b with
  | nil => simpa [add_sentinel_mark_to_delete_bitmap] using he
  | cons a l ih =>
    simp only [add_sentinel_mark_to_delete_bitmap, List.foldl_cons] at *
    exact ih _ (List.mem_cons_of_mem _ he)

lemma sentinel_mem_add_sentinel (ids : List Nat) (b : DeleteBitmapM) (rid : Nat)
    (hrid : rid ∈ ids) :
    ((rid, INVALID_SEGMENT_ID, TEMP_VERSION_COMMON), ROWSET_SENTINEL_MARK)
      ∈ add_sentinel_mark_to_delete_bitmap b ids := by
  induction ids generalizing b with
  | nil => cases hrid
  | cons a l ih =>
    simp only [add_sentinel_mark_to_delete_bitmap, List.foldl_cons] at *
    rcases List.mem_cons.mp hrid with h | h
    · subst h
      exact mem_add_sentinel_of_mem l _ _ (List.mem_cons_self _ _)
    · exact ih _ h

section C10Theorems

/-- C10: `set_tablet_state` is atomic on error and makes `TABLET_SHUTDOWN`
terminal: from `shutdown` to any other state it returns an error and leaves
the state unchanged; in every other case it stores the requested state and
returns OK. -/
theorem set_tablet_state_shutdown_terminal (cur req : TabletState) :
    (cur = TabletState.shutdown → req ≠ TabletState.shutdown →
      set_tablet_state cur req = (Status.metaInvalidArgument, cur)) ∧
    (¬(cur = TabletState.shutdown ∧ req ≠ TabletState.shutdown) →
      set_tablet_state cur req = (Status.ok, req)) ∧
    ((set_tablet_state cur req).1 = Status.ok ↔
      ¬(cur = TabletState.shutdown ∧ req ≠ TabletState.shutdown)) := by
  cases cur <;> cases req <;> decide

/-- Witness for C10 at concrete states: leaving shutdown fails and keeps the
state; a running tablet can be shut down. -/
theorem set_tablet_state_shutdown_terminal_witness :
    set_tablet_state TabletState.shutdown TabletState.running
        = (Status.metaInvalidArgument, TabletState.shutdown) ∧
    set_tablet_state TabletState.running TabletState.shutdown
        = (Status.ok, TabletState.shutdown) :=
  ⟨((set_tablet_state_shutdown_terminal TabletState.shutdown TabletState.running).1
      (by decide) (by decide)),
   ((set_tablet_state_shutdown_terminal TabletState.running TabletState.shutdown).2.1
      (by decide))⟩

end C10Theorems

section C2Theorems

/-- C2: `check_delete_bitmap_correctness` returns OK iff every rowset id has
its sentinel key `(rowset_id, INVALID_SEGMENT_ID, TEMP_VERSION_COMMON)` in the
delete bitmap, and returns `InternalError` when at least one id is missing. -/
theorem check_delete_bitmap_correctness_ok_iff (bitmap_keys : List BitmapKey)
    (rowset_ids : List Nat) :
    (check_delete_bitmap_correctness bitmap_keys rowset_ids = Status.ok ↔
      ∀ rid ∈ rowset_ids,
        (rid, INVALID_SEGMENT_ID, TEMP_VERSION_COMMON) ∈ bitmap_keys) ∧
    ((∃ rid ∈ rowset_ids,
        (rid, INVALID_SEGMENT_ID, TEMP_VERSION_COMMON) ∉ bitmap_keys) →
      check_delete_bitmap_correctness bitmap_keys rowset_ids = Status.internalError) := by
  have hfilter : (rowset_ids.filter
      (fun rid => !(decide ((rid, INVALID_SEGMENT_ID, TEMP_VERSION_COMMON) ∈ bitmap_keys)))) = []
      ↔ ∀ rid ∈ rowset_ids,
          (rid, INVALID_SEGMENT_ID, TEMP_VERSION_COMMON) ∈ bitmap_keys := by
    rw [List.filter_eq_nil_iff]
    constructor
    · intro h rid hrid
      have := h rid hrid
      simpa using this
    · intro h rid hrid
      simpa using h rid hrid
  constructor
  · rw [check_delete_bitmap_correctness]
    by_cases h : (rowset_ids.filter
        (fun rid => !(decide ((rid, INVALID_SEGMENT_ID, TEMP_VERSION_COMMON) ∈ bitmap_keys)))) = []
    · rw [if_pos (by simp [h])]
      exact ⟨fun _ => hfilter.mp h, fun _ => rfl⟩
    · rw [if_neg (by simpa using h)]
      constructor
      · intro hc; cases hc
      · intro hall; exact absurd (hfilter.mpr hall) h
  · rintro ⟨rid, hrid, hmiss⟩
    rw [check_delete_bitmap_correctness, if_neg]
    intro hempty
    have hnil : (rowset_ids.filter
        (fun rid => !(decide ((rid, INVALID_SEGMENT_ID, TEMP_VERSION_COMMON) ∈ bitmap_keys)))) = [] := by
      simpa using hempty
    exact hmiss (hfilter.mp hnil rid hrid)

/-- Witness for C2: with one rowset missing its sentinel the check fails; with
the sentinel present it succeeds. -/
theorem check_delete_bitmap_correctness_ok_iff_witness :
    check_delete_bitmap_correctness [(7, INVALID_SEGMENT_ID, TEMP_VERSION_COMMON)] [7]
        = Status.ok ∧
    check_delete_bitmap_correctness [] [7] = Status.internalError :=
  ⟨((check_delete_bitmap_correctness_ok_iff
        [(7, INVALID_SEGMENT_ID, TEMP_VERSION_COMMON)] [7]).1.2
      (by intro rid hrid; simp at hrid; subst hrid; simp)),
   ((check_delete_bitmap_correctness_ok_iff [] [7]).2
      ⟨7, by simp, by simp⟩)⟩

end C2Theorems

section C3Theorems

/-- C3 counterexample: with `config::enable_merge_on_write_correctness_check`
disabled, completing the segment calculation records no sentinel for the
processed base rowset, so the sentinel is not recorded unconditionally. -/
theorem sentinel_not_unconditional_counterexample :
    calc_segment_delete_bitmap_sentinel_stage false [7] [] = [] ∧
    ((7, INVALID_SEGMENT_ID, TEMP_VERSION_COMMON), ROWSET_SENTINEL_MARK)
        ∉ calc_segment_delete_bitmap_sentinel_stage false [7] [] := by
  constructor
  · rfl
  · intro h
    simp [calc_segment_delete_bitmap_sentinel_stage] at h

/-- C3 (amended): once segment calculation completes, a sentinel entry is
recorded for every specified base rowset provided the correctness-check config
`enable_merge_on_write_correctness_check` is enabled; with it disabled the
bitmap is left unchanged. -/
theorem sentinel_recorded_when_check_enabled (specified_rowset_ids : List Nat)
    (bm : DeleteBitmapM) :
    (∀ rid ∈ specified_rowset_ids,
      ((rid, INVALID_SEGMENT_ID, TEMP_VERSION_COMMON), ROWSET_SENTINEL_MARK)
        ∈ calc_segment_delete_bitmap_sentinel_stage true specified_rowset_ids bm) ∧
    calc_segment_delete_bitmap_sentinel_stage false specified_rowset_ids bm = bm := by
  constructor
  · intro rid hrid
    simp only [calc_segment_delete_bitmap_sentinel_stage, if_pos]
    exact sentinel_mem_add_sentinel specified_rowset_ids bm rid hrid
  · rfl

/-- Witness for C3's amended theorem at a concrete input. -/
theorem sentinel_recorded_when_check_enabled_witness :
    ((7, INVALID_SEGMENT_ID, TEMP_VERSION_COMMON), ROWSET_SENTINEL_MARK)
      ∈ calc_segment_delete_bitmap_sentinel_stage true [7] [] :=
  (sentinel_recorded_when_check_enabled [7] []).1 7 (List.mem_cons_self _ _)

end C3Theorems

section C1Theorems

/-- C1: in the per-key loop of `calc_segment_delete_bitmap`, for a key not
filtered as a same-segment duplicate: `KEY_NOT_FOUND` adds no delete mark;
`KEY_ALREADY_EXISTS` on a non-partial write marks the new row
`(rowset_id, seg_id, row_id)` deleted at `TEMP_VERSION_COMMON`; a successful
lookup marks the resolved old row's location deleted at
`TEMP_VERSION_COMMON`, and for a partial update both the old and the new row
locations are queued into the read plans and both are marked at the
temporary version. -/
theorem calc_segment_delete_bitmap_step_spec (rowset_id seg_id : Nat)
    (ctx : PartialUpdateCtx) (st : CalcState) (row_id : Nat) (loc : RowLocation)
    (hnew : bmContains st.delete_bitmap (rowset_id, seg_id, TEMP_VERSION_COMMON) row_id
      = false) :
    (calc_segment_delete_bitmap_step rowset_id seg_id ctx st row_id
        KeyLookupResult.keyNotFound = st) ∧
    (ctx.is_partial_update = false →
      calc_segment_delete_bitmap_step rowset_id seg_id ctx st row_id
          (KeyLookupResult.keyAlreadyExists loc)
        = { st with
              delete_bitmap :=
                bmAdd st.delete_bitmap (rowset_id, seg_id, TEMP_VERSION_COMMON) row_id }) ∧
    (ctx.is_partial_update = false →
      calc_segment_delete_bitmap_step rowset_id seg_id ctx st row_id
          (KeyLookupResult.found loc)
        = { st with
              delete_bitmap :=
                bmAdd st.delete_bitmap
                  (loc.rowset_id, loc.segment_id, TEMP_VERSION_COMMON) loc.row_id }) ∧
    (ctx.is_partial_update = true →
      (((loc.rowset_id, loc.segment_id, TEMP_VERSION_COMMON), loc.row_id)
          ∈ (calc_segment_delete_bitmap_step rowset_id seg_id ctx st row_id
              (KeyLookupResult.found loc)).delete_bitmap ∧
       ((rowset_id, seg_id, TEMP_VERSION_COMMON), row_id)
          ∈ (calc_segment_delete_bitmap_step rowset_id seg_id ctx st row_id
              (KeyLookupResult.found loc)).delete_bitmap ∧
       (calc_segment_delete_bitmap_step rowset_id seg_id ctx st row_id
          (KeyLookupResult.found loc)).read_plan_ori
          = st.read_plan_ori ++ [(loc, st.pos)] ∧
       (calc_segment_delete_bitmap_step rowset_id seg_id ctx st row_id
          (KeyLookupResult.found loc)).read_plan_update
          = st.read_plan_update ++ [(RowLocation.mk rowset_id seg_id row_id, st.pos)])) := by
  refine ⟨?_, ?_, ?_, ?_⟩
  · simp [calc_segment_delete_bitmap_step, hnew]
  · intro hp
    simp [calc_segment_delete_bitmap_step, hnew, hp]
  · intro hp
    simp [calc_segment_delete_bitmap_step, hnew, hp]
  · intro hp
    simp [calc_segment_delete_bitmap_step, hnew, hp, partialUpdateBranch, bmAdd]

/-- Witness for C1 at concrete inputs, covering the not-found, non-partial
conflict, and partial-update success cases. -/
theorem calc_segment_delete_bitmap_step_spec_witness :
    (calc_segment_delete_bitmap_step 1 0 (PartialUpdateCtx.mk false false false)
        (CalcState.mk [] [] [] [] 0) 5 KeyLookupResult.keyNotFound
      = CalcState.mk [] [] [] [] 0) ∧
    (calc_segment_delete_bitmap_step 1 0 (PartialUpdateCtx.mk false false false)
        (CalcState.mk [] [] [] [] 0) 5
        (KeyLookupResult.keyAlreadyExists (RowLocation.mk 2 3 4))
      = CalcState.mk [((1, 0, TEMP_VERSION_COMMON), 5)] [] [] [] 0) ∧
    (((2, 3, TEMP_VERSION_COMMON), 4)
      ∈ (calc_segment_delete_bitmap_step 1 0 (PartialUpdateCtx.mk true true false)
          (CalcState.mk [] [] [] [] 0) 5
          (KeyLookupResult.found (RowLocation.mk 2 3 4))).delete_bitmap) :=
  ⟨(calc_segment_delete_bitmap_step_spec 1 0 (PartialUpdateCtx.mk false false false)
      (CalcState.mk [] [] [] [] 0) 5 (RowLocation.mk 2 3 4) (by decide)).1,
   (calc_segment_delete_bitmap_step_spec 1 0 (PartialUpdateCtx.mk false false false)
      (CalcState.mk [] [] [] [] 0) 5 (RowLocation.mk 2 3 4) (by decide)).2.1 rfl,
   ((calc_segment_delete_bitmap_step_spec 1 0 (PartialUpdateCtx.mk true true false)
      (CalcState.mk [] [] [] [] 0) 5 (RowLocation.mk 2 3 4) (by decide)).2.2.2 rfl).1⟩

end C1Theorems

section C4Theorems

/-- C4: in fixed partial-update reconstruction, a missing column of a row
whose conflicting rows carry no delete-sign mark takes the old row's stored
value; when the old row is delete-signed (always so when the schema has no
sequence column, and otherwise whenever the input specifies the sequence
column or the column is not the sequence column) it resolves to the declared
default if present, else null if nullable, else the type default — a value
independent of the old row's stored value. -/
theorem generate_new_block_missing_cell_spec (has_seq have_input : Bool)
    (col : TabletColumn) (new_ds old_ds : Bool) (old_value : CellValue) :
    (new_ds = false → old_ds = false →
      generate_new_block_missing_cell has_seq have_input col new_ds old_ds old_value
        = old_value) ∧
    (new_ds = false → old_ds = true →
      (has_seq = false ∨ have_input = true ∨ col.is_seqeunce_col = false) →
      generate_new_block_missing_cell has_seq have_input col new_ds old_ds old_value
        = (if col.has_default_value then col.default_value
           else if col.is_nullable then CellValue.null
           else col.type_default)) := by
  constructor
  · rintro rfl rfl
    cases has_seq <;> simp [generate_new_block_missing_cell]
  · rintro rfl rfl h
    cases has_seq <;> cases have_input <;> cases hc : col.is_seqeunce_col <;>
      simp_all [generate_new_block_missing_cell]

/-- Witness for C4: the spec's §8 scenario — missing column `c1` with old
value `a`; without delete signs the old value is kept, and when the old row
is delete-signed and `c1` is nullable with no declared default the cell
resolves to null, not to `a`. -/
theorem generate_new_block_missing_cell_spec_witness :
    (generate_new_block_missing_cell false false
        (TabletColumn.mk false CellValue.null true false (CellValue.val 0))
        false false (CellValue.val 10) = CellValue.val 10) ∧
    (generate_new_block_missing_cell false false
        (TabletColumn.mk false CellValue.null true false (CellValue.val 0))
        false true (CellValue.val 10) = CellValue.null) :=
  ⟨(generate_new_block_missing_cell_spec false false
      (TabletColumn.mk false CellValue.null true false (CellValue.val 0))
      false false (CellValue.val 10)).1 rfl rfl,
   ((generate_new_block_missing_cell_spec false false
      (TabletColumn.mk false CellValue.null true false (CellValue.val 0))
      false true (CellValue.val 10)).2 rfl rfl (Or.inl rfl)).trans (by decide)⟩

end C4Theorems

section C9Theorems

/-- C9: after a producer round the task budget is retuned from the queue
depth: empty queue doubles it bounded by the ceiling; depth at or above the
high-water mark halves it bounded below by 1; otherwise it is unchanged.
With the scenario configuration (ceiling 64, high-water mark 4) the spec's
concrete cases hold: (1,1)→1, (4,0)→8, (64,0)→64, (8,3)→8, (8,5)→4. -/
theorem auto_tune_compaction_num_per_round_spec
    (budget queue ceiling high_water : Nat) :
    (queue = 0 →
      auto_tune_compaction_num_per_round budget queue ceiling high_water
        = min (budget * 2) ceiling) ∧
    (queue ≠ 0 → high_water ≤ queue →
      auto_tune_compaction_num_per_round budget queue ceiling high_water
        = max (budget / 2) 1) ∧
    (queue ≠ 0 → queue < high_water →
      auto_tune_compaction_num_per_round budget queue ceiling high_water
        = budget) ∧
    (auto_tune_compaction_num_per_round 1 1 64 4 = 1 ∧
     auto_tune_compaction_num_per_round 4 0 64 4 = 8 ∧
     auto_tune_compaction_num_per_round 64 0 64 4 = 64 ∧
     auto_tune_compaction_num_per_round 8 3 64 4 = 8 ∧
     auto_tune_compaction_num_per_round 8 5 64 4 = 4) := by
  refine ⟨?_, ?_, ?_, by decide⟩
  · intro h
    simp [auto_tune_compaction_num_per_round, h]
  · intro h1 h2
    simp [auto_tune_compaction_num_per_round, h1, h2]
  · intro h1 h2
    simp [auto_tune_compaction_num_per_round, h1, Nat.not_le.mpr h2, not_lt.mpr (Nat.zero_le _)]

/-- Witness for C9 applying the theorem at the doubling scenario. -/
theorem auto_tune_compaction_num_per_round_spec_witness :
    auto_tune_compaction_num_per_round 4 0 64 4 = min (4 * 2) 64 :=
  (auto_tune_compaction_num_per_round_spec 4 0 64 4).1 rfl

end C9Theorems

section C5Theorems

lemma remove_cond_iff (rid : Nat) (k : BitmapKey)
    (h1 : k.2.1 < UINT32_MAX) (h2 : 0 ≤ k.2.2) (h3 : k.2.2 < INT64_MAX) :
    (keyLeB (rid, 0, 0) k && keyLtB k (rid, UINT32_MAX, INT64_MAX)) = true ↔ k.1 = rid := by
  obtain ⟨a, b, c⟩ := k
  simp only [keyLeB, keyLtB, UINT32_MAX, INT64_MAX, Bool.or_eq_true, Bool.and_eq_true,
    decide_eq_true_eq, Prod.mk.injEq] at *
  omega

lemma bmRemoveRange_full_rowset (bm : DeleteBitmapM) (rid : Nat)
    (hwf : ∀ e ∈ bm, e.1.2.1 < UINT32_MAX ∧ 0 ≤ e.1.2.2 ∧ e.1.2.2 < INT64_MAX)
    (e : BitmapEntry) :
    e ∈ bmRemoveRange bm (rid, 0, 0) (rid, UINT32_MAX, INT64_MAX) ↔
      (e ∈ bm ∧ e.1.1 ≠ rid) := by
  unfold bmRemoveRange
  rw [List.mem_filter]
  constructor
  · rintro ⟨he, hc⟩
    obtain ⟨h1, h2, h3⟩ := hwf e he
    refine ⟨he, fun hr => ?_⟩
    have hcond : (keyLeB (rid, 0, 0) e.1 && keyLtB e.1 (rid, UINT32_MAX, INT64_MAX)) = true :=
      (remove_cond_iff rid e.1 h1 h2 h3).mpr hr
    rw [hcond] at hc
    exact absurd hc (by decide)
  · rintro ⟨he, hne⟩
    obtain ⟨h1, h2, h3⟩ := hwf e he
    refine ⟨he, ?_⟩
    rw [Bool.not_eq_true']
    exact Bool.eq_false_iff.mpr
      (fun hc => hne ((remove_cond_iff rid e.1 h1 h2 h3).mp hc))

lemma remove_rowsets_spec (to_del : List Nat) (bm : DeleteBitmapM)
    (hwf : ∀ e ∈ bm, e.1.2.1 < UINT32_MAX ∧ 0 ≤ e.1.2.2 ∧ e.1.2.2 < INT64_MAX)
    (e : BitmapEntry) :
    e ∈ remove_rowsets_from_delete_bitmap bm to_del ↔
      (e ∈ bm ∧ e.1.1 ∉ to_del) := by
  induction to_del generalizing bm with
  | nil => simp [remove_rowsets_from_delete_bitmap]
  | cons a l ih =>
    have hwf' : ∀ x ∈ bmRemoveRange bm (a, 0, 0) (a, UINT32_MAX, INT64_MAX),
        x.1.2.1 < UINT32_MAX ∧ 0 ≤ x.1.2.2 ∧ x.1.2.2 < INT64_MAX := by
      intro x hx
      exact hwf x (List.mem_filter.mp hx).1
    have hstep : remove_rowsets_from_delete_bitmap bm (a :: l)
        = remove_rowsets_from_delete_bitmap
            (bmRemoveRange bm (a, 0, 0) (a, UINT32_MAX, INT64_MAX)) l := rfl
    rw [hstep, ih _ hwf', bmRemoveRange_full_rowset bm a hwf e]
    simp only [List.mem_cons, not_or]
    tauto

/-- C5 counterexample: in the publish phase of a transaction load, the
specified rowsets include the transaction's invisible rowsets even when they
are not in `to_add` — here `to_add` is empty, yet rowset 5 is in the
computation set. -/
theorem txn_load_specified_counterexample :
    Rowset.mk 5 3 false ∈ publish_specified_rowsets [] [] true [Rowset.mk 5 3 false] ∧
    (5 : Nat) ∉ ([] : List Nat) := by
  constructor
  · have h : publish_specified_rowsets [] [] true [Rowset.mk 5 3 false]
        = (get_rowset_by_ids [] [] ++ [Rowset.mk 5 3 false]).mergeSort
            (fun lhs rhs => decide (rhs.end_version ≤ lhs.end_version)) := rfl
    rw [h]
    exact List.mem_mergeSort.mpr
      (List.mem_append_right _ (List.mem_singleton_self _))
  · simp

/-- C5 (amended): `to_add` is exactly (current ids minus write-start ids) and
`to_del` exactly (write-start ids minus current ids); the removal loop erases
exactly the bitmap entries whose rowset id is in `to_del` (over the full
segment-id/version range, given machine-integer-bounded entries); and the
deletions are computed only against rowsets of `to_add` — in the commit phase
always, and in the publish phase for non-transaction loads (a transaction
load additionally includes its own invisible rowsets). -/
theorem rowset_reconciliation_spec (cur pre : List Nat) (bm : DeleteBitmapM)
    (rs_version_map : List Rowset)
    (hwf : ∀ e ∈ bm, e.1.2.1 < UINT32_MAX ∧ 0 ≤ e.1.2.2 ∧ e.1.2.2 < INT64_MAX) :
    (∀ id, id ∈ (_rowset_ids_difference cur pre).1 ↔ (id ∈ cur ∧ id ∉ pre)) ∧
    (∀ id, id ∈ (_rowset_ids_difference cur pre).2 ↔ (id ∈ pre ∧ id ∉ cur)) ∧
    (∀ e, e ∈ remove_rowsets_from_delete_bitmap bm (_rowset_ids_difference cur pre).2 ↔
        (e ∈ bm ∧ e.1.1 ∉ (_rowset_ids_difference cur pre).2)) ∧
    (∀ (to_add : List Nat) (rs : Rowset), rs ∈ get_rowset_by_ids rs_version_map to_add →
        rs.rowset_id ∈ to_add) ∧
    (∀ (to_add : List Nat) (invisible : List Rowset) (rs : Rowset),
        rs ∈ publish_specified_rowsets rs_version_map to_add false invisible →
        rs.rowset_id ∈ to_add) := by
  have hget : ∀ (to_add : List Nat) (rs : Rowset),
      rs ∈ get_rowset_by_ids rs_version_map to_add → rs.rowset_id ∈ to_add := by
    intro to_add rs h
    unfold get_rowset_by_ids at h
    simpa using (List.mem_filter.mp (List.mem_mergeSort.mp h)).2
  refine ⟨?_, ?_, ?_, hget, ?_⟩
  · intro id
    simp [_rowset_ids_difference, List.mem_filter]
  · intro id
    simp [_rowset_ids_difference, List.mem_filter]
  · intro e
    exact remove_rowsets_spec _ bm hwf e
  · intro to_add invisible rs h
    exact hget to_add rs h

/-- Witness for C5's amended theorem at concrete inputs: `to_add`/`to_del`
are the exact differences, and the entry of removed rowset 2 is erased while
rowset 1's entry survives. -/
theorem rowset_reconciliation_spec_witness :
    ((1 : Nat) ∈ (_rowset_ids_difference [1, 3] [2, 3]).1 ∧
     (2 : Nat) ∈ (_rowset_ids_difference [1, 3] [2, 3]).2) ∧
    (((1, 0, TEMP_VERSION_COMMON), 4)
        ∈ remove_rowsets_from_delete_bitmap
            [((1, 0, TEMP_VERSION_COMMON), 4), ((2, 0, TEMP_VERSION_COMMON), 9)]
            (_rowset_ids_difference [1, 3] [2, 3]).2 ∧
     ((2, 0, TEMP_VERSION_COMMON), 9)
        ∉ remove_rowsets_from_delete_bitmap
            [((1, 0, TEMP_VERSION_COMMON), 4), ((2, 0, TEMP_VERSION_COMMON), 9)]
            (_rowset_ids_difference [1, 3] [2, 3]).2) := by
  have h := rowset_reconciliation_spec [1, 3] [2, 3]
      [((1, 0, TEMP_VERSION_COMMON), 4), ((2, 0, TEMP_VERSION_COMMON), 9)] []
      (by decide)
  refine ⟨⟨(h.1 1).mpr (by decide), (h.2.1 2).mpr (by decide)⟩, ?_, ?_⟩
  · exact (h.2.2.1 ((1, 0, TEMP_VERSION_COMMON), 4)).mpr (by decide)
  · intro hc
    have := (h.2.2.1 ((2, 0, TEMP_VERSION_COMMON), 9)).mp hc
    revert this
    decide

end C5Theorems

section C7Theorems

lemma check_rowid_conversion_locations_spec
    (read_src_key read_dst_key : RowLocation → ReadKeyResult)
    (locs : List (RowLocation × RowLocation))
    (hread : ∀ p ∈ locs, (∃ k, read_src_key p.1 = ReadKeyResult.ok k) ∧
        (∃ k, read_dst_key p.2 = ReadKeyResult.ok k)) :
    (check_rowid_conversion_locations read_src_key read_dst_key locs = none ↔
      ∀ p ∈ locs, read_src_key p.1 = read_dst_key p.2) ∧
    ((∃ p ∈ locs, read_src_key p.1 ≠ read_dst_key p.2) →
      check_rowid_conversion_locations read_src_key read_dst_key locs
        = some Status.internalError) := by
  induction locs with
  | nil => simp [check_rowid_conversion_locations]
  | cons hd rest ih =>
    obtain ⟨src, dst⟩ := hd
    obtain ⟨⟨ks, hks⟩, ⟨kd, hkd⟩⟩ := hread (src, dst) (List.mem_cons_self _ _)
    dsimp only at hks hkd
    have ih' := ih (fun p hp => hread p (List.mem_cons_of_mem _ hp))
    by_cases hk : ks = kd
    · subst hk
      have hstep : check_rowid_conversion_locations read_src_key read_dst_key
          ((src, dst) :: rest)
          = check_rowid_conversion_locations read_src_key read_dst_key rest := by
        simp [check_rowid_conversion_locations, hks, hkd]
      rw [hstep]
      constructor
      · rw [ih'.1]
        constructor
        · intro h p hp
          rcases List.mem_cons.mp hp with rfl | hp'
          · show read_src_key src = read_dst_key dst
            rw [hks, hkd]
          · exact h p hp'
        · intro h p hp
          exact h p (List.mem_cons_of_mem _ hp)
      · rintro ⟨p, hp, hne⟩
        rcases List.mem_cons.mp hp with rfl | hp'
        · exact absurd (show read_src_key src = read_dst_key dst by rw [hks, hkd]) hne
        · exact ih'.2 ⟨p, hp', hne⟩
    · have hstep : check_rowid_conversion_locations read_src_key read_dst_key
          ((src, dst) :: rest) = some Status.internalError := by
        simp [check_rowid_conversion_locations, hks, hkd, hk]
      rw [hstep]
      constructor
      · constructor
        · intro h; cases h
        · intro h
          exfalso
          apply hk
          have := h (src, dst) (List.mem_cons_self _ _)
          dsimp only at this
          rw [hks, hkd] at this
          exact ReadKeyResult.ok.inj this
      · intro _; rfl

lemma check_rowid_conversion_rowsets_spec
    (read_src_key read_dst_key : RowLocation → ReadKeyResult)
    (lm : List (List (RowLocation × RowLocation)))
    (hread : ∀ l ∈ lm, ∀ p ∈ l, (∃ k, read_src_key p.1 = ReadKeyResult.ok k) ∧
        (∃ k, read_dst_key p.2 = ReadKeyResult.ok k)) :
    (check_rowid_conversion_rowsets read_src_key read_dst_key lm = Status.ok ↔
      ∀ l ∈ lm, ∀ p ∈ l, read_src_key p.1 = read_dst_key p.2) ∧
    ((∃ l ∈ lm, ∃ p ∈ l, read_src_key p.1 ≠ read_dst_key p.2) →
      check_rowid_conversion_rowsets read_src_key read_dst_key lm
        = Status.internalError) := by
  induction lm with
  | nil => simp [check_rowid_conversion_rowsets]
  | cons l rest ih =>
    have hl := check_rowid_conversion_locations_spec read_src_key read_dst_key l
      (hread l (List.mem_cons_self _ _))
    have ih' := ih (fun x hx => hread x (List.mem_cons_of_mem _ hx))
    by_cases hall : ∀ p ∈ l, read_src_key p.1 = read_dst_key p.2
    · have hnone : check_rowid_conversion_locations read_src_key read_dst_key l = none :=
        hl.1.mpr hall
      have hstep : check_rowid_conversion_rowsets read_src_key read_dst_key (l :: rest)
          = check_rowid_conversion_rowsets read_src_key read_dst_key rest := by
        simp [check_rowid_conversion_rowsets, hnone]
      rw [hstep]
      constructor
      · rw [ih'.1]
        constructor
        · intro h x hx
          rcases List.mem_cons.mp hx with rfl | hx'
          · exact hall
          · exact h x hx'
        · intro h x hx
          exact h x (List.mem_cons_of_mem _ hx)
      · rintro ⟨x, hx, p, hp, hne⟩
        rcases List.mem_cons.mp hx with rfl | hx'
        · exact absurd (hall p hp) hne
        · exact ih'.2 ⟨x, hx', p, hp, hne⟩
    · push_neg at hall
      have hsome : check_rowid_conversion_locations read_src_key read_dst_key l
          = some Status.internalError := hl.2 hall
      have hstep : check_rowid_conversion_rowsets read_src_key read_dst_key (l :: rest)
          = Status.internalError := by
        simp [check_rowid_conversion_rowsets, hsome]
      rw [hstep]
      constructor
      · constructor
        · intro h; cases h
        · intro h
          obtain ⟨p, hp, hne⟩ := hall
          exact absurd (h l (List.mem_cons_self _ _) p hp) hne
      · intro _; rfl

/-- C7: with all key reads succeeding, `check_rowid_conversion` returns OK iff
the location map is empty or every remapped pair's source key equals its
destination key, and returns `InternalError` when some verified pair's keys
differ. -/
theorem check_rowid_conversion_spec
    (read_src_key read_dst_key : RowLocation → ReadKeyResult)
    (location_map : List (List (RowLocation × RowLocation)))
    (hread : ∀ l ∈ location_map, ∀ p ∈ l,
        (∃ k, read_src_key p.1 = ReadKeyResult.ok k) ∧
        (∃ k, read_dst_key p.2 = ReadKeyResult.ok k)) :
    (location_map = [] →
      check_rowid_conversion read_src_key read_dst_key location_map = Status.ok) ∧
    (check_rowid_conversion read_src_key read_dst_key location_map = Status.ok ↔
      ∀ l ∈ location_map, ∀ p ∈ l, read_src_key p.1 = read_dst_key p.2) ∧
    ((∃ l ∈ location_map, ∃ p ∈ l, read_src_key p.1 ≠ read_dst_key p.2) →
      check_rowid_conversion read_src_key read_dst_key location_map
        = Status.internalError) := by
  by_cases hmap : location_map = []
  · subst hmap
    refine ⟨fun _ => rfl, by simp [check_rowid_conversion], ?_⟩
    rintro ⟨l, hl, _⟩
    cases hl
  · have hne : check_rowid_conversion read_src_key read_dst_key location_map
        = check_rowid_conversion_rowsets read_src_key read_dst_key location_map := by
      rw [check_rowid_conversion, if_neg (by simpa using hmap)]
    rw [hne]
    have h := check_rowid_conversion_rowsets_spec read_src_key read_dst_key location_map hread
    exact ⟨fun hc => absurd hc hmap, h.1, h.2⟩

/-- Witness for C7: a remapped pair with byte-equal keys passes; a pair whose
keys differ yields `InternalError`. -/
theorem check_rowid_conversion_spec_witness :
    check_rowid_conversion (fun _ => ReadKeyResult.ok 1) (fun _ => ReadKeyResult.ok 1)
        [[(RowLocation.mk 0 0 0, RowLocation.mk 9 0 2)]] = Status.ok ∧
    check_rowid_conversion (fun _ => ReadKeyResult.ok 1) (fun _ => ReadKeyResult.ok 2)
        [[(RowLocation.mk 0 0 0, RowLocation.mk 9 0 2)]] = Status.internalError :=
  ⟨(check_rowid_conversion_spec (fun _ => ReadKeyResult.ok 1) (fun _ => ReadKeyResult.ok 1)
      [[(RowLocation.mk 0 0 0, RowLocation.mk 9 0 2)]]
      (by intro l hl p hp; exact ⟨⟨1, rfl⟩, ⟨1, rfl⟩⟩)).2.1.mpr
      (by intro l hl p hp; rfl),
   (check_rowid_conversion_spec (fun _ => ReadKeyResult.ok 1) (fun _ => ReadKeyResult.ok 2)
      [[(RowLocation.mk 0 0 0, RowLocation.mk 9 0 2)]]
      (by intro l hl p hp; exact ⟨⟨1, rfl⟩, ⟨2, rfl⟩⟩)).2.2
      ⟨[(RowLocation.mk 0 0 0, RowLocation.mk 9 0 2)], List.mem_singleton_self _,
       (RowLocation.mk 0 0 0, RowLocation.mk 9 0 2), List.mem_singleton_self _,
       by decide⟩⟩

end C7Theorems

section C6Theorems

lemma convertEntries_missed_iff (conv : List (RowLocation × RowLocation))
    (entries : DeleteBitmapM) (src : RowLocation) :
    src ∈ (convertEntries conv entries).missed_rows ↔
      ∃ e ∈ entries, src = RowLocation.mk e.1.1 e.1.2.1 e.2 ∧
        rowid_conversion_get conv src = none := by
  induction entries with
  | nil => simp [convertEntries]
  | cons e rest ih =>
    cases hg : rowid_conversion_get conv (RowLocation.mk e.1.1 e.1.2.1 e.2) with
    | none =>
      have hmiss : (convertEntries conv (e :: rest)).missed_rows
          = RowLocation.mk e.1.1 e.1.2.1 e.2 :: (convertEntries conv rest).missed_rows := by
        simp [convertEntries, hg]
      rw [hmiss, List.mem_cons, ih]
      constructor
      · rintro (rfl | ⟨e', he', hs, hn⟩)
        · exact ⟨e, List.mem_cons_self _ _, rfl, hg⟩
        · exact ⟨e', List.mem_cons_of_mem _ he', hs, hn⟩
      · rintro ⟨e', he', hs, hn⟩
        rcases List.mem_cons.mp he' with rfl | he''
        · exact Or.inl hs
        · exact Or.inr ⟨e', he'', hs, hn⟩
    | some dst0 =>
      have hmiss : (convertEntries conv (e :: rest)).missed_rows
          = (convertEntries conv rest).missed_rows := by
        simp [convertEntries, hg]
      rw [hmiss, ih]
      constructor
      · rintro ⟨e', he', hs, hn⟩
        exact ⟨e', List.mem_cons_of_mem _ he', hs, hn⟩
      · rintro ⟨e', he', hs, hn⟩
        rcases List.mem_cons.mp he' with rfl | he''
        · subst hs
          rw [hg] at hn
          cases hn
        · exact ⟨e', he'', hs, hn⟩

lemma convertEntries_out_iff (conv : List (RowLocation × RowLocation))
    (entries : DeleteBitmapM) (x : BitmapEntry) :
    x ∈ (convertEntries conv entries).output_rowset_delete_bitmap ↔
      ∃ e ∈ entries, ∃ dst,
        rowid_conversion_get conv (RowLocation.mk e.1.1 e.1.2.1 e.2) = some dst ∧
        x = ((dst.rowset_id, dst.segment_id, e.1.2.2), dst.row_id) := by
  induction entries with
  | nil => simp [convertEntries]
  | cons e rest ih =>
    cases hg : rowid_conversion_get conv (RowLocation.mk e.1.1 e.1.2.1 e.2) with
    | none =>
      have hout : (convertEntries conv (e :: rest)).output_rowset_delete_bitmap
          = (convertEntries conv rest).output_rowset_delete_bitmap := by
        simp [convertEntries, hg]
      rw [hout, ih]
      constructor
      · rintro ⟨e', he', dst, hgd, hx⟩
        exact ⟨e', List.mem_cons_of_mem _ he', dst, hgd, hx⟩
      · rintro ⟨e', he', dst, hgd, hx⟩
        rcases List.mem_cons.mp he' with rfl | he''
        · rw [hg] at hgd
          cases hgd
        · exact ⟨e', he'', dst, hgd, hx⟩
    | some dst0 =>
      have hout : (convertEntries conv (e :: rest)).output_rowset_delete_bitmap
          = ((dst0.rowset_id, dst0.segment_id, e.1.2.2), dst0.row_id)
              :: (convertEntries conv rest).output_rowset_delete_bitmap := by
        simp [convertEntries, hg, bmAdd]
      rw [hout, List.mem_cons, ih]
      constructor
      · rintro (rfl | ⟨e', he', dst, hgd, hx⟩)
        · exact ⟨e, List.mem_cons_self _ _, dst0, hg, rfl⟩
        · exact ⟨e', List.mem_cons_of_mem _ he', dst, hgd, hx⟩
      · rintro ⟨e', he', dst, hgd, hx⟩
        rcases List.mem_cons.mp he' with rfl | he''
        · rw [hg] at hgd
          injection hgd with hd
          subst hd
          exact Or.inl hx
        · exact Or.inr ⟨e', he'', dst, hgd, hx⟩

lemma mem_compaction_source_entries (input_rowsets : List (Nat × Nat))
    (bm : DeleteBitmapM) (sv ev : Int) (e : BitmapEntry) :
    e ∈ compaction_source_entries input_rowsets bm sv ev ↔
      ((∃ p ∈ input_rowsets, e.1.1 = p.1 ∧ e.1.2.1 < p.2) ∧
        e ∈ bm ∧ sv ≤ e.1.2.2 ∧ e.1.2.2 ≤ ev) := by
  unfold compaction_source_entries bmSubsetSeg
  simp only [List.mem_flatMap, List.mem_range, List.mem_filter, Bool.and_eq_true,
    decide_eq_true_eq]
  constructor
  · rintro ⟨p, hp, seg, hseg, he, ⟨⟨⟨h1, h2⟩, h3⟩, h4⟩⟩
    exact ⟨⟨p, hp, h1, by rw [h2]; exact hseg⟩, he, h3, h4⟩
  · rintro ⟨⟨p, hp, h1, h2⟩, he, h3, h4⟩
    exact ⟨p, hp, e.1.2.1, h2, he, ⟨⟨⟨h1, rfl⟩, h3⟩, h4⟩⟩

/-- C6: `calc_compaction_output_rowset_delete_bitmap` re-expresses exactly the
delete marks of the input rowsets with versions in
`[start_version, end_version]`: the output bitmap contains precisely the
entries `(dst rowset, dst segment, same version) -> dst row-id` for marked
source rows the conversion table maps, and `missed_rows` contains precisely
the marked source rows with no destination mapping (which contribute no
output entry, and no error status exists). -/
theorem calc_compaction_output_rowset_delete_bitmap_spec
    (input_rowsets : List (Nat × Nat)) (conv : List (RowLocation × RowLocation))
    (start_version end_version : Int) (bm : DeleteBitmapM) :
    (∀ x, x ∈ (calc_compaction_output_rowset_delete_bitmap input_rowsets conv
          start_version end_version bm).output_rowset_delete_bitmap ↔
        ∃ src dst ver, sourceMarked input_rowsets bm start_version end_version src ver ∧
          rowid_conversion_get conv src = some dst ∧
          x = ((dst.rowset_id, dst.segment_id, ver), dst.row_id)) ∧
    (∀ src, src ∈ (calc_compaction_output_rowset_delete_bitmap input_rowsets conv
          start_version end_version bm).missed_rows ↔
        ((∃ ver, sourceMarked input_rowsets bm start_version end_version src ver) ∧
          rowid_conversion_get conv src = none)) := by
  constructor
  · intro x
    rw [show calc_compaction_output_rowset_delete_bitmap input_rowsets conv
          start_version end_version bm
        = convertEntries conv
            (compaction_source_entries input_rowsets bm start_version end_version) from rfl,
      convertEntries_out_iff]
    constructor
    · rintro ⟨e, he, dst, hgd, hx⟩
      obtain ⟨⟨a, b, v⟩, r⟩ := e
      rw [mem_compaction_source_entries] at he
      obtain ⟨⟨p, hp, h1, h2⟩, hbm, h3, h4⟩ := he
      exact ⟨RowLocation.mk a b r, dst, v, ⟨⟨p, hp, h1, h2⟩, hbm, h3, h4⟩, hgd, hx⟩
    · rintro ⟨src, dst, ver, ⟨hin, hbm, h3, h4⟩, hgd, hx⟩
      refine ⟨((src.rowset_id, src.segment_id, ver), src.row_id), ?_, dst, hgd, hx⟩
      rw [mem_compaction_source_entries]
      exact ⟨hin, hbm, h3, h4⟩
  · intro src
    rw [show calc_compaction_output_rowset_delete_bitmap input_rowsets conv
          start_version end_version bm
        = convertEntries conv
            (compaction_source_entries input_rowsets bm start_version end_version) from rfl,
      convertEntries_missed_iff]
    constructor
    · rintro ⟨e, he, hs, hn⟩
      obtain ⟨⟨a, b, v⟩, r⟩ := e
      rw [mem_compaction_source_entries] at he
      obtain ⟨⟨p, hp, h1, h2⟩, hbm, h3, h4⟩ := he
      subst hs
      exact ⟨⟨v, ⟨p, hp, h1, h2⟩, hbm, h3, h4⟩, hn⟩
    · rintro ⟨⟨ver, hin, hbm, h3, h4⟩, hn⟩
      refine ⟨((src.rowset_id, src.segment_id, ver), src.row_id), ?_, rfl, hn⟩
      rw [mem_compaction_source_entries]
      exact ⟨hin, hbm, h3, h4⟩

/-- Witness for C6: one input rowset with one segment carrying two marks at
version 2 in range [2, 3]; row 0 is remapped to rowset 9 row 5 and appears in
the output at version 2, while row 1 has no mapping and lands in
`missed_rows`. -/
theorem calc_compaction_output_rowset_delete_bitmap_spec_witness :
    ((9, 0, (2 : Int)), 5) ∈ (calc_compaction_output_rowset_delete_bitmap
        [(1, 1)] [(RowLocation.mk 1 0 0, RowLocation.mk 9 0 5)] 2 3
        [((1, 0, (2 : Int)), 0), ((1, 0, (2 : Int)), 1)]).output_rowset_delete_bitmap ∧
    RowLocation.mk 1 0 1 ∈ (calc_compaction_output_rowset_delete_bitmap
        [(1, 1)] [(RowLocation.mk 1 0 0, RowLocation.mk 9 0 5)] 2 3
        [((1, 0, (2 : Int)), 0), ((1, 0, (2 : Int)), 1)]).missed_rows :=
  ⟨((calc_compaction_output_rowset_delete_bitmap_spec
      [(1, 1)] [(RowLocation.mk 1 0 0, RowLocation.mk 9 0 5)] 2 3
      [((1, 0, (2 : Int)), 0), ((1, 0, (2 : Int)), 1)]).1 _).mpr
      ⟨RowLocation.mk 1 0 0, RowLocation.mk 9 0 5, 2,
        ⟨⟨(1, 1), List.mem_singleton_self _, rfl, by decide⟩, by simp, by decide, by decide⟩,
        rfl, rfl⟩,
   ((calc_compaction_output_rowset_delete_bitmap_spec
      [(1, 1)] [(RowLocation.mk 1 0 0, RowLocation.mk 9 0 5)] 2 3
      [((1, 0, (2 : Int)), 0), ((1, 0, (2 : Int)), 1)]).2 _).mpr
      ⟨⟨2, ⟨(1, 1), List.mem_singleton_self _, rfl, by decide⟩, by simp, by decide, by decide⟩,
        rfl⟩⟩

end C6Theorems

section C8Theorems

lemma mem_picked_segments (segs : List SegmentInfo) (j : Nat) :
    j ∈ picked_segments segs ↔
      (j < segs.length ∧ (segs.getD j defaultSegment).key_is_not_in_segment = false) := by
  unfold picked_segments
  rw [List.mem_filter, List.mem_reverse, List.mem_range]
  simp [Bool.not_eq_true']

lemma lookup_segments_none (agg_deleted : List RowLocation) (segs : List SegmentInfo)
    (ids : List Nat)
    (h : ∀ j ∈ ids, ((segs.getD j defaultSegment).lookup ≠ SegLookupResult.ioErr) ∧
        (∀ l, (segs.getD j defaultSegment).lookup ≠ SegLookupResult.keyAlreadyExists l) ∧
        (∀ l, (segs.getD j defaultSegment).lookup = SegLookupResult.found l →
          l ∈ agg_deleted)) :
    lookup_row_key_in_segments false agg_deleted segs ids = none := by
  induction ids with
  | nil => rfl
  | cons j rest ih =>
    obtain ⟨he, ha, hf⟩ := h j (List.mem_cons_self _ _)
    cases hl : (segs.getD j defaultSegment).lookup with
    | keyNotFound =>
      simp only [lookup_row_key_in_segments, hl]
      exact ih (fun i hi => h i (List.mem_cons_of_mem _ hi))
    | ioErr => exact absurd hl he
    | keyAlreadyExists l => exact absurd hl (ha l)
    | found l =>
      have hm : l ∈ agg_deleted := hf l hl
      simp only [lookup_row_key_in_segments, hl]
      simp [hm]

lemma lookup_segments_some (agg_deleted : List RowLocation) (segs : List SegmentInfo)
    (ids : List Nat) (j : Nat) (loc : RowLocation)
    (hj : j ∈ ids)
    (hfound : (segs.getD j defaultSegment).lookup = SegLookupResult.found loc)
    (hlive : loc ∉ agg_deleted)
    (herr : ∀ i ∈ ids, ((segs.getD i defaultSegment).lookup ≠ SegLookupResult.ioErr) ∧
        (∀ l, (segs.getD i defaultSegment).lookup ≠ SegLookupResult.keyAlreadyExists l))
    (hone : ∀ i ∈ ids, ∀ l,
        (segs.getD i defaultSegment).lookup = SegLookupResult.found l →
        (segs.getD i defaultSegment).lookup = (segs.getD j defaultSegment).lookup) :
    lookup_row_key_in_segments false agg_deleted segs ids
      = some (LookupOutcome.ok loc) := by
  induction ids with
  | nil => cases hj
  | cons i rest ih =>
    obtain ⟨he, ha⟩ := herr i (List.mem_cons_self _ _)
    cases hl : (segs.getD i defaultSegment).lookup with
    | ioErr => exact absurd hl he
    | keyAlreadyExists l => exact absurd hl (ha l)
    | keyNotFound =>
      simp only [lookup_row_key_in_segments, hl]
      have hj' : j ∈ rest := by
        rcases List.mem_cons.mp hj with rfl | h'
        · rw [hfound] at hl
          cases hl
        · exact h'
      exact ih hj' (fun x hx => herr x (List.mem_cons_of_mem _ hx))
        (fun x hx l hfl => hone x (List.mem_cons_of_mem _ hx) l hfl)
    | found l =>
      have heq : (segs.getD i defaultSegment).lookup
          = (segs.getD j defaultSegment).lookup := hone i (List.mem_cons_self _ _) l hl
      rw [hl, hfound] at heq
      injection heq with hle
      subst hle
      simp only [lookup_row_key_in_segments, hl]
      simp [hlive]

lemma lookup_one_rowset (agg_deleted : List RowLocation) (segs : List SegmentInfo)
    (hb : ∀ s ∈ segs, s.key_is_not_in_segment = true → s.lookup = SegLookupResult.keyNotFound)
    (herr : ∀ s ∈ segs, s.lookup ≠ SegLookupResult.ioErr ∧
        ∀ l, s.lookup ≠ SegLookupResult.keyAlreadyExists l)
    (hone : ∀ i1 i2, i1 < segs.length → i2 < segs.length →
        (∃ l, (segs.getD i1 defaultSegment).lookup = SegLookupResult.found l) →
        (∃ l, (segs.getD i2 defaultSegment).lookup = SegLookupResult.found l) →
        i1 = i2) :
    (¬(∃ s ∈ segs, segmentLive agg_deleted s) →
      lookup_row_key_in_segments false agg_deleted segs (picked_segments segs) = none) ∧
    (∀ s ∈ segs, ∀ loc, s.lookup = SegLookupResult.found loc → loc ∉ agg_deleted →
      lookup_row_key_in_segments false agg_deleted segs (picked_segments segs)
        = some (LookupOutcome.ok loc)) := by
  have hgetmem : ∀ j, j < segs.length → segs.getD j defaultSegment ∈ segs := by
    intro j hjl
    rw [List.getD_eq_getElem _ _ hjl]
    exact List.getElem_mem _
  constructor
  · intro hnolive
    apply lookup_segments_none
    intro j hjp
    obtain ⟨hjl, _⟩ := (mem_picked_segments segs j).mp hjp
    have hmem := hgetmem j hjl
    refine ⟨(herr _ hmem).1, (herr _ hmem).2, ?_⟩
    intro l hfl
    by_contra hnin
    exact hnolive ⟨segs.getD j defaultSegment, hmem, l, hfl, hnin⟩
  · intro s hs loc hfound hlive
    obtain ⟨j, hjl, hsj⟩ := List.mem_iff_getElem.mp hs
    have hgd : segs.getD j defaultSegment = s := by
      rw [List.getD_eq_getElem _ _ hjl, hsj]
    have hjp : j ∈ picked_segments segs := by
      rw [mem_picked_segments]
      refine ⟨hjl, ?_⟩
      cases hbv : (segs.getD j defaultSegment).key_is_not_in_segment
      · rfl
      · exfalso
        have := hb _ (hgetmem j hjl) (by rw [hgd] at hbv; rw [hgd]; exact hbv)
        rw [hgd] at this
        rw [this] at hfound
        cases hfound
    apply lookup_segments_some agg_deleted segs _ j loc hjp (by rw [hgd]; exact hfound) hlive
    · intro i hip
      obtain ⟨hil, _⟩ := (mem_picked_segments segs i).mp hip
      exact herr _ (hgetmem i hil)
    · intro i hip l hfl
      obtain ⟨hil, _⟩ := (mem_picked_segments segs i).mp hip
      have hij : i = j :=
        hone i j hil hjl ⟨l, hfl⟩ ⟨loc, by rw [hgd]; exact hfound⟩
      rw [hij]

end C8Theorems

section C8MainTheorems

/-- C8 counterexample: schema without a sequence column, one candidate rowset
whose two segments both find the key; the newer occurrence (segment 1) is
covered by the delete bitmap, so the scan `break`s out of the segment loop
(base_tablet.cpp:532) and skips segment 0, returning `KEY_NOT_FOUND` even
though segment 0 holds a live occurrence of the key. -/
theorem lookup_row_key_miss_live_counterexample :
    lookup_row_key false [RowLocation.mk 1 1 0]
        [CandidateRowset.mk
          [SegmentInfo.mk false (SegLookupResult.found (RowLocation.mk 1 0 0)),
           SegmentInfo.mk false (SegLookupResult.found (RowLocation.mk 1 1 0))]]
      = LookupOutcome.notFound ∧
    rowsetHasLive [RowLocation.mk 1 1 0]
      (CandidateRowset.mk
        [SegmentInfo.mk false (SegLookupResult.found (RowLocation.mk 1 0 0)),
         SegmentInfo.mk false (SegLookupResult.found (RowLocation.mk 1 1 0))]) := by
  constructor
  · rfl
  · exact ⟨SegmentInfo.mk false (SegLookupResult.found (RowLocation.mk 1 0 0)),
      List.mem_cons_self _ _, RowLocation.mk 1 0 0, rfl, by decide⟩

/-- C8 (amended): for a schema without a sequence column, provided the
key-range bounds check only excludes segments that do not contain the key,
segment lookups produce no error and no `KEY_ALREADY_EXISTS`, and at most one
segment per candidate rowset finds the key, `lookup_row_key` — scanning
rowsets newest-first and segments in descending id order — returns
`KEY_NOT_FOUND` exactly when no live occurrence (one not covered by the
delete bitmap aggregated up to the version) exists in any candidate segment,
and otherwise returns a live location from the first (most recent) candidate
rowset holding one. -/
theorem lookup_row_key_spec (agg_deleted : List RowLocation)
    (rowsets : List CandidateRowset)
    (hb : ∀ rs ∈ rowsets, ∀ s ∈ rs.segments,
        s.key_is_not_in_segment = true → s.lookup = SegLookupResult.keyNotFound)
    (herr : ∀ rs ∈ rowsets, ∀ s ∈ rs.segments, s.lookup ≠ SegLookupResult.ioErr ∧
        ∀ l, s.lookup ≠ SegLookupResult.keyAlreadyExists l)
    (hone : ∀ rs ∈ rowsets, ∀ i1 i2, i1 < rs.segments.length → i2 < rs.segments.length →
        (∃ l, (rs.segments.getD i1 defaultSegment).lookup = SegLookupResult.found l) →
        (∃ l, (rs.segments.getD i2 defaultSegment).lookup = SegLookupResult.found l) →
        i1 = i2) :
    (lookup_row_key false agg_deleted rowsets = LookupOutcome.notFound ↔
      ∀ rs ∈ rowsets, ¬ rowsetHasLive agg_deleted rs) ∧
    (∀ loc, lookup_row_key false agg_deleted rowsets = LookupOutcome.ok loc →
      loc ∉ agg_deleted ∧
      ∃ pre rs post, rowsets = pre ++ rs :: post ∧
        (∃ s ∈ rs.segments, s.lookup = SegLookupResult.found loc) ∧
        ∀ rs' ∈ pre, ¬ rowsetHasLive agg_deleted rs') := by
  induction rowsets with
  | nil =>
    constructor
    · simp [lookup_row_key]
    · intro loc h
      simp [lookup_row_key] at h
  | cons rs rest ih =>
    have hbh := hb rs (List.mem_cons_self _ _)
    have herrh := herr rs (List.mem_cons_self _ _)
    have honeh := hone rs (List.mem_cons_self _ _)
    have ih' := ih (fun r hr => hb r (List.mem_cons_of_mem _ hr))
      (fun r hr => herr r (List.mem_cons_of_mem _ hr))
      (fun r hr => hone r (List.mem_cons_of_mem _ hr))
    have hrow := lookup_one_rowset agg_deleted rs.segments hbh herrh honeh
    by_cases hlive : rowsetHasLive agg_deleted rs
    · obtain ⟨s, hs, loc0, hf0, hnin0⟩ := hlive
      have hinner := hrow.2 s hs loc0 hf0 hnin0
      have hres : lookup_row_key false agg_deleted (rs :: rest)
          = LookupOutcome.ok loc0 := by
        simp only [lookup_row_key, hinner]
      rw [hres]
      constructor
      · constructor
        · intro h
          simp at h
        · intro h
          exact absurd ⟨s, hs, loc0, hf0, hnin0⟩ (h rs (List.mem_cons_self _ _))
      · intro loc hres'
        injection hres' with he
        subst he
        exact ⟨hnin0, [], rs, rest, rfl, ⟨s, hs, hf0⟩,
          fun rs' hr' => absurd hr' (List.not_mem_nil _)⟩
    · have hinner : lookup_row_key_in_segments false agg_deleted rs.segments
          (picked_segments rs.segments) = none := hrow.1 hlive
      have hres : lookup_row_key false agg_deleted (rs :: rest)
          = lookup_row_key false agg_deleted rest := by
        simp only [lookup_row_key, hinner]
      rw [hres]
      constructor
      · rw [ih'.1]
        constructor
        · intro h r hr
          rcases List.mem_cons.mp hr with rfl | hr'
          · exact hlive
          · exact h r hr'
        · intro h r hr
          exact h r (List.mem_cons_of_mem _ hr)
      · intro loc hres'
        obtain ⟨hnin, pre, r0, post, hsplit, hfound, hpre⟩ := ih'.2 loc hres'
        refine ⟨hnin, rs :: pre, r0, post, by rw [hsplit]; rfl, hfound, ?_⟩
        intro rs' hr'
        rcases List.mem_cons.mp hr' with rfl | hr''
        · exact hlive
        · exact hpre rs' hr''

/-- Witness for C8's amended theorem: one rowset whose only occurrence is
deleted at the version, so the lookup reports `KEY_NOT_FOUND`. -/
theorem lookup_row_key_spec_witness :
    lookup_row_key false [RowLocation.mk 1 0 0]
        [CandidateRowset.mk [SegmentInfo.mk false (SegLookupResult.found (RowLocation.mk 1 0 0))]]
      = LookupOutcome.notFound :=
  (lookup_row_key_spec [RowLocation.mk 1 0 0]
      [CandidateRowset.mk [SegmentInfo.mk false (SegLookupResult.found (RowLocation.mk 1 0 0))]]
      (by
        intro rs hrs s hs h
        fin_cases hrs
        fin_cases hs
        simp at h)
      (by
        intro rs hrs s hs
        fin_cases hrs
        fin_cases hs
        refine ⟨fun h => ?_, fun l h => ?_⟩
        · cases h
        · cases h)
      (by
        intro rs hrs i1 i2 h1 h2 _ _
        fin_cases hrs
        simp at h1 h2
        omega)).1.mpr
    (by
      rintro rs hrs ⟨s, hs, loc, hf, hnin⟩
      fin_cases hrs
      fin_cases hs
      cases hf
      exact hnin (by decide))

end C8MainTheorems
